import Mathlib

/-!
Verification of the LAN-CHAT connection/broadcast subsystem.

Shallow embedding of `src/socket_wrapper.cpp` (length-prefixed message
framing over a byte stream) and `src/room.cpp` / `src/client_handler.cpp`
(the thread-safe peer registry and its broadcast fan-out).

Modelling conventions:
* a byte stream is a `List Nat` of byte values; machine `uint32_t`
  arithmetic is `Nat` with explicit `% 2^32`;
* the Winsock `SOCKET` handle is abstracted to the one bit the wrapper
  inspects: whether `sock_ != INVALID_SOCKET` (`sock_valid`);
* transport outcomes of the blocking `send_all` loop are an explicit
  oracle (`headerOk`, `bodyOk`: does the OS accept all bytes of the
  header resp. body); `recv_all` failure is modelled by the incoming
  stream ending before the requested byte count;
* C++ exceptions become `Except` errors; functions that the C++ code
  leaves the socket field untouched in return the socket unchanged.
-/

/-- Hard cap on a received message body, `MAX_MSG` in `receive_message`
(`64u * 1024u * 1024u`). -/
def MAX_MSG : Nat := 64 * 1024 * 1024

/-- Big-endian 4-byte encoding of a `uint32_t` value, as produced by
`htonl` followed by writing the 4 bytes of the word to the wire. -/
def encode_u32_be (n : Nat) : List Nat :=
  [n / 2 ^ 24 % 256, n / 2 ^ 16 % 256, n / 2 ^ 8 % 256, n % 256]

/-- Reassembly of a 4-byte big-endian word, as done by reading 4 bytes
into a `uint32_t` and applying `ntohl`. Byte values are `< 256` on a
real wire; any other list decodes to 0 (unreachable in the code, which
always reads exactly 4 bytes). -/
def decode_u32_be : List Nat → Nat
  | [b0, b1, b2, b3] => b0 * 2 ^ 24 + b1 * 2 ^ 16 + b2 * 2 ^ 8 + b3
  | _ => 0

/-- The state of `SocketWrapper` that its own methods inspect:
`sock_valid` is `sock_ != INVALID_SOCKET`. -/
structure SocketWrapper where
  sock_valid : Bool
deriving DecidableEq, Repr

/-- `SocketWrapper::is_valid`: `sock_ != INVALID_SOCKET`. -/
def SocketWrapper.is_valid (s : SocketWrapper) : Bool :=
  s.sock_valid

/-- `SocketWrapper::close`: shuts down and closes the handle when valid,
then sets `sock_ = INVALID_SOCKET`; idempotent. -/
def SocketWrapper.close (_ : SocketWrapper) : SocketWrapper :=
  { sock_valid := false }

/-- The move constructor `SocketWrapper(SocketWrapper&&)`: the new
wrapper takes `other.sock_`; the source is left with `INVALID_SOCKET`.
First component: the newly constructed wrapper; second: the moved-from
source. -/
def SocketWrapper.moveFrom (other : SocketWrapper) :
    SocketWrapper × SocketWrapper :=
  ({ sock_valid := other.sock_valid }, { sock_valid := false })

/-- The `std::runtime_error`s thrown by `SocketWrapper::send_message`. -/
inductive SendError where
  | invalidSocket
  | headerFailed
  | bodyFailed
deriving DecidableEq, Repr

/-- The `std::runtime_error` thrown by `SocketWrapper::receive_message`
when the declared length exceeds `MAX_MSG`. -/
inductive RecvError where
  | frameTooLarge
deriving DecidableEq, Repr

/-- `SocketWrapper::send_message`: throws if the socket is invalid;
otherwise encodes `static_cast<uint32_t>(message.size())` as a 4-byte
big-endian header, sends it with `send_all` (throws on transport
failure), and when the length is positive sends `len` bytes of the body
(throws on transport failure). On success the wire carries the header
followed by the body bytes. `headerOk` / `bodyOk` are the transport
oracle for the two `send_all` calls. The method never writes `sock_`,
so the returned wrapper is the input unchanged. -/
def SocketWrapper.send_message (s : SocketWrapper) (headerOk bodyOk : Bool)
    (message : List Nat) : Except SendError (List Nat) × SocketWrapper :=
  if s.is_valid = false then
    (.error .invalidSocket, s)
  else if headerOk = false then
    (.error .headerFailed, s)
  else
    let len := message.length % 2 ^ 32
    if 0 < len ∧ bodyOk = false then
      (.error .bodyFailed, s)
    else
      (.ok (encode_u32_be len ++ message.take len), s)

/-- `SocketWrapper::receive_message`: result of running the method on a
socket whose incoming stream holds `stream` bytes before the peer's end
of stream. Returns the method's result (`.error .frameTooLarge` for the
thrown exception, `.ok payload` otherwise — the empty payload doubles as
the peer-disconnected indication), the number of bytes consumed from the
stream, and the wrapper after the call (the method never writes `sock_`).
`recv_all` fails exactly when fewer bytes remain than requested, in
which case it has consumed what was available. -/
def SocketWrapper.receive_message (s : SocketWrapper) (stream : List Nat) :
    Except RecvError (List Nat) × Nat × SocketWrapper :=
  if s.is_valid = false then
    (.ok [], 0, s)
  else if stream.length < 4 then
    (.ok [], stream.length, s)
  else
    let len := decode_u32_be (stream.take 4)
    if len = 0 then
      (.ok [], 4, s)
    else if MAX_MSG < len then
      (.error .frameTooLarge, 4, s)
    else
      let rest := stream.drop 4
      if rest.length < len then
        (.ok [], 4 + rest.length, s)
      else
        (.ok (rest.take len), 4 + len, s)

/-- Big-endian length round-trip for values that fit in 32 bits. -/
theorem decode_encode_u32 (n : Nat) (h : n < 2 ^ 32) :
    decode_u32_be (encode_u32_be n) = n := by
  simp only [encode_u32_be, decode_u32_be]
  omega

/-- The encoded header is always exactly 4 bytes. -/
theorem encode_u32_be_length (n : Nat) : (encode_u32_be n).length = 4 := by
  simp [encode_u32_be]

/-- `send_message` never writes the socket field. -/
theorem send_message_sock (s : SocketWrapper) (headerOk bodyOk : Bool)
    (msg : List Nat) : (s.send_message headerOk bodyOk msg).2 = s := by
  simp only [SocketWrapper.send_message]
  split
  · rfl
  split
  · rfl
  split <;> rfl

/-- `receive_message` never writes the socket field. -/
theorem receive_message_sock (s : SocketWrapper) (stream : List Nat) :
    (s.receive_message stream).2.2 = s := by
  simp only [SocketWrapper.receive_message]
  split
  · rfl
  split
  · rfl
  split
  · rfl
  split
  · rfl
  split <;> rfl

/-- Helper: a well-formed frame for a payload within the cap is decoded
back to exactly that payload, consuming the whole frame. -/
theorem receive_message_frame (payload : List Nat) (h1 : 0 < payload.length)
    (h2 : payload.length ≤ MAX_MSG) :
    SocketWrapper.receive_message ⟨true⟩
        (encode_u32_be payload.length ++ payload) =
      (.ok payload, 4 + payload.length, ⟨true⟩) := by
  have hlt : payload.length < 2 ^ 32 := by
    have : MAX_MSG < 2 ^ 32 := by norm_num [MAX_MSG]
    omega
  have htake : (encode_u32_be payload.length ++ payload).take 4 =
      encode_u32_be payload.length :=
    List.take_left' (encode_u32_be_length _)
  have hdrop : (encode_u32_be payload.length ++ payload).drop 4 = payload :=
    List.drop_left' (encode_u32_be_length _)
  have hlen : (encode_u32_be payload.length ++ payload).length =
      4 + payload.length := by
    simp [encode_u32_be_length]
  simp only [SocketWrapper.receive_message, SocketWrapper.is_valid, htake,
    hdrop, hlen, decode_encode_u32 _ hlt]
  rw [if_neg (by simp), if_neg (by omega), if_neg (by omega),
    if_neg (by omega), if_neg (by omega), List.take_length]

/-- C1 — Framing round-trip: on a valid connected pair with a working
transport, for every message of positive length at most `MAX_MSG`,
`receive_message` applied to the byte stream produced by `send_message`
yields exactly the sent message; for the empty message the receiver
yields the empty result, which coincides with `receive_message`'s result
on an already-ended stream (a disconnect), so the two are
indistinguishable. -/
theorem framing_round_trip (msg : List Nat) (h1 : 0 < msg.length)
    (h2 : msg.length ≤ MAX_MSG) :
    (∃ wire, (SocketWrapper.send_message ⟨true⟩ true true msg).1 = .ok wire ∧
      (SocketWrapper.receive_message ⟨true⟩ wire).1 = .ok msg) ∧
    (∃ wire0,
      (SocketWrapper.send_message ⟨true⟩ true true []).1 = .ok wire0 ∧
      (SocketWrapper.receive_message ⟨true⟩ wire0).1 = .ok [] ∧
      (SocketWrapper.receive_message ⟨true⟩ []).1 = .ok []) := by
  have hlt : msg.length < 2 ^ 32 := by
    have : MAX_MSG < 2 ^ 32 := by norm_num [MAX_MSG]
    omega
  have hmod : msg.length % 2 ^ 32 = msg.length := Nat.mod_eq_of_lt hlt
  refine ⟨⟨encode_u32_be msg.length ++ msg, ?_, ?_⟩,
    ⟨[0, 0, 0, 0], ?_, ?_, ?_⟩⟩
  · have hmod' : msg.length % 4294967296 = msg.length := by omega
    simp [SocketWrapper.send_message, SocketWrapper.is_valid, hmod,
      hmod', List.take_length, h1]
  · rw [receive_message_frame msg h1 h2]
  · simp [SocketWrapper.send_message, SocketWrapper.is_valid,
      encode_u32_be]
  · simp [SocketWrapper.receive_message, SocketWrapper.is_valid,
      decode_u32_be]
  · simp [SocketWrapper.receive_message, SocketWrapper.is_valid]

/-- Witness for C1 at the concrete message "hi" = `[104, 105]`. -/
theorem framing_round_trip_witness :
    (∃ wire,
      (SocketWrapper.send_message ⟨true⟩ true true [104, 105]).1 =
        .ok wire ∧
      (SocketWrapper.receive_message ⟨true⟩ wire).1 = .ok [104, 105]) ∧
    (∃ wire0,
      (SocketWrapper.send_message ⟨true⟩ true true []).1 = .ok wire0 ∧
      (SocketWrapper.receive_message ⟨true⟩ wire0).1 = .ok [] ∧
      (SocketWrapper.receive_message ⟨true⟩ []).1 = .ok []) :=
  framing_round_trip [104, 105] (by decide) (by norm_num [MAX_MSG])

/-- C3 — Oversized frame rejection: on a valid socket, when the 4-byte
big-endian length prefix decodes to a value above `MAX_MSG`,
`receive_message` fails with the `FrameTooLarge` error and has consumed
exactly the 4 header bytes — none of the claimed payload bytes. -/
theorem oversized_frame_rejected (s : SocketWrapper) (stream : List Nat)
    (hv : s.is_valid = true) (hlen : 4 ≤ stream.length)
    (hbig : MAX_MSG < decode_u32_be (stream.take 4)) :
    s.receive_message stream = (.error .frameTooLarge, 4, s) := by
  have hne : decode_u32_be (stream.take 4) ≠ 0 := by
    have : 0 < MAX_MSG := by norm_num [MAX_MSG]
    omega
  simp only [SocketWrapper.receive_message, hv]
  rw [if_neg (by simp), if_neg (by omega), if_neg hne, if_pos hbig]

/-- Witness for C3: a declared length of 100 MiB (bytes `[6, 64, 0, 0]`,
i.e. `104857600`) followed by some payload bytes is rejected after the
4 header bytes. -/
theorem oversized_frame_rejected_witness :
    SocketWrapper.receive_message ⟨true⟩ [6, 64, 0, 0, 1, 2, 3] =
      (.error .frameTooLarge, 4, ⟨true⟩) :=
  oversized_frame_rejected ⟨true⟩ [6, 64, 0, 0, 1, 2, 3] rfl (by decide)
    (by norm_num [MAX_MSG, decode_u32_be])

/-- C5 — Empty message: sending the empty string on a valid socket is
permitted (no error) and transmits exactly the zero-valued 4-byte length
header with no payload bytes, regardless of the body-transport oracle
(the body send is skipped); and `receive_message`, on decoding a
zero-length frame, returns the empty result without error, consuming
only the 4 header bytes. -/
theorem empty_message_zero_frame (bodyOk : Bool) (rest : List Nat) :
    SocketWrapper.send_message ⟨true⟩ true bodyOk [] =
      (.ok [0, 0, 0, 0], ⟨true⟩) ∧
    SocketWrapper.receive_message ⟨true⟩ ([0, 0, 0, 0] ++ rest) =
      (.ok [], 4, ⟨true⟩) := by
  constructor
  · simp [SocketWrapper.send_message, SocketWrapper.is_valid, encode_u32_be]
  · have htake : (([0, 0, 0, 0] : List Nat) ++ rest).take 4 =
        [0, 0, 0, 0] := List.take_left' rfl
    have hlen : (([0, 0, 0, 0] : List Nat) ++ rest).length =
        4 + rest.length := by
      simp only [List.length_append, List.length_cons, List.length_nil]
    have hdec : decode_u32_be [0, 0, 0, 0] = 0 := by
      norm_num [decode_u32_be]
    simp [SocketWrapper.receive_message, SocketWrapper.is_valid, htake,
      hlen, hdec]

/-- C6 — Invalid connections reject operations: on a closed or moved-from
wrapper, `send_message` fails with the invalid-socket error (thrown
before any transport activity), and `receive_message` refuses to proceed,
yielding the empty (disconnect-sentinel) result having consumed zero
bytes from the stream. -/
theorem invalid_socket_rejects_ops (s : SocketWrapper)
    (headerOk bodyOk : Bool) (msg stream : List Nat) :
    (SocketWrapper.send_message s.close headerOk bodyOk msg).1 =
      .error .invalidSocket ∧
    SocketWrapper.receive_message s.close stream = (.ok [], 0, s.close) ∧
    (SocketWrapper.send_message (SocketWrapper.moveFrom s).2
        headerOk bodyOk msg).1 = .error .invalidSocket ∧
    SocketWrapper.receive_message (SocketWrapper.moveFrom s).2 stream =
      (.ok [], 0, (SocketWrapper.moveFrom s).2) := by
  refine ⟨?_, ?_, ?_, ?_⟩ <;>
    simp [SocketWrapper.send_message, SocketWrapper.receive_message,
      SocketWrapper.is_valid, SocketWrapper.close, SocketWrapper.moveFrom]

/-- C7 (amended) — `is_valid` is true from construction with a valid
handle until `close` is called or the wrapper is moved from; neither
`send_message` nor `receive_message` ever changes it, in particular a
transport error reported by either leaves the handle valid. -/
theorem is_valid_until_close (s : SocketWrapper) (headerOk bodyOk : Bool)
    (msg stream : List Nat) :
    ((s.send_message headerOk bodyOk msg).2).is_valid = s.is_valid ∧
    ((s.receive_message stream).2.2).is_valid = s.is_valid ∧
    (s.close).is_valid = false ∧
    ((SocketWrapper.moveFrom s).1).is_valid = s.is_valid ∧
    ((SocketWrapper.moveFrom s).2).is_valid = false := by
  refine ⟨?_, ?_, rfl, rfl, rfl⟩
  · rw [send_message_sock]
  · rw [receive_message_sock]

/-- Counterexample to C7 as stated: the claim says that after a send
operation reports a transport error, `is_valid()` returns false. Here a
valid socket's `send_message` fails with a transport error on the length
header, yet `is_valid` on the wrapper after the call is still true: the
code only ever invalidates the handle in `close()` and the move
operations, never on a transport error. -/
theorem transport_error_keeps_valid :
    (SocketWrapper.send_message ⟨true⟩ false false [104, 105]).1 =
      .error .headerFailed ∧
    ((SocketWrapper.send_message ⟨true⟩ false false [104, 105]).2).is_valid =
      true := by
  exact ⟨rfl, rfl⟩

/-- C10 — Received payloads are bounded: whatever the socket state and
the incoming byte stream, a payload returned by `receive_message` has
length at most `MAX_MSG`. -/
theorem receive_message_bounded (s : SocketWrapper)
    (stream payload : List Nat)
    (h : (s.receive_message stream).1 = .ok payload) :
    payload.length ≤ MAX_MSG := by
  simp only [SocketWrapper.receive_message] at h
  split at h
  · obtain rfl : ([] : List Nat) = payload := by
      simpa using h
    simp
  · split at h
    · obtain rfl : ([] : List Nat) = payload := by
        simpa using h
      simp
    · split at h
      · obtain rfl : ([] : List Nat) = payload := by
          simpa using h
        simp
      · split at h
        · simp at h
        · split at h
          · obtain rfl : ([] : List Nat) = payload := by
              simpa using h
            simp
          · obtain rfl :
                (stream.drop 4).take (decode_u32_be (stream.take 4)) =
                  payload := by simpa using h
            have hle : decode_u32_be (stream.take 4) ≤ MAX_MSG := by omega
            calc ((stream.drop 4).take (decode_u32_be (stream.take 4))).length
                ≤ decode_u32_be (stream.take 4) :=
                  List.length_take_le _ _
              _ ≤ MAX_MSG := hle

/-- Witness for C10: a concrete 2-byte frame yields a payload of length
2, within the cap. -/
theorem receive_message_bounded_witness :
    ([104, 105] : List Nat).length ≤ MAX_MSG :=
  receive_message_bounded ⟨true⟩ [0, 0, 0, 2, 104, 105] [104, 105] rfl

/-!
Registry layer: `ClientHandler` (`src/client_handler.cpp`) and `Room`
(`src/room.cpp`). The registry state a `Room` method can read or write
is the `unordered_map` `clients_` — modelled as an association list in
insertion order with unique keys, since iteration order of the C++ map
is unspecified — and the `uint32_t` counter `next_id_`. A handler's
`sent` field is ghost instrumentation recording the payloads passed to
`ClientHandler::send` (in C++ those bytes leave through the handler's
socket; they are not registry state). Concurrency is serialized: every
`Room` method runs under the single `mutex_`, so the methods are
modelled as sequential state transformers.
-/

/-- Per-connection worker state visible to the `Room`: display name,
the `running_` flag, and the ghost list of payloads its `send` received.
The worker's id is the key it is stored under in `Room.clients` (C++
also caches it in `id_`). -/
structure ClientHandler where
  name : String
  running_ : Bool
  sent : List String
deriving DecidableEq, Repr

/-- `ClientHandler::is_active`: reads `running_`. -/
def ClientHandler.is_active (h : ClientHandler) : Bool :=
  h.running_

/-- `ClientHandler::send`: under the handler's send lock, writes the
payload to the handler's socket, swallowing errors. Modelled as
recording the payload in the ghost `sent` list. -/
def ClientHandler.send (h : ClientHandler) (payload : String) :
    ClientHandler :=
  { h with sent := h.sent ++ [payload] }

/-- `ClientHandler::stop`: stores `false` into `running_` and closes the
handler's socket. -/
def ClientHandler.stop (h : ClientHandler) : ClientHandler :=
  { h with running_ := false }

/-- The `Room` registry state: `clients_` (id ↦ handler, unique keys)
and the `uint32_t` counter `next_id_` (initially 1). -/
structure Room where
  clients : List (Nat × ClientHandler)
  next_id : Nat
deriving DecidableEq, Repr

/-- A default-constructed `Room`: no clients, `next_id_{1}`. -/
def freshRoom : Room :=
  { clients := [], next_id := 1 }

/-- The ids currently registered, in map order. -/
def Room.ids (r : Room) : List Nat :=
  r.clients.map Prod.fst

/-- `Room::add_client`: under the mutex, reads `id = next_id_++`
(`uint32_t` increment, hence `% 2 ^ 32`), constructs a running handler
for the connection, and `emplace`s it — which inserts only if the key
is not already present. Returns the id and the new state. -/
def Room.add_client (r : Room) (name : String) : Nat × Room :=
  let id := r.next_id
  let handler : ClientHandler := { name := name, running_ := true, sent := [] }
  let clients :=
    if (r.clients.lookup id).isSome then r.clients
    else r.clients ++ [(id, handler)]
  (id, { clients := clients, next_id := (r.next_id + 1) % 2 ^ 32 })

/-- `Room::remove_client`: under the mutex, looks the id up; if absent,
does nothing; if present, calls `stop()` on the handler and erases the
entry. The second component is the handler `stop()` was invoked on
(`none` when the id was absent). -/
def Room.remove_client (r : Room) (id : Nat) : Room × Option ClientHandler :=
  match r.clients.lookup id with
  | none => (r, none)
  | some h =>
    ({ r with clients := r.clients.eraseP (fun p => p.1 == id) }, some h.stop)

/-- `Room::broadcast`: formats the payload `"[sender_name]: message"`
once, then under the mutex iterates all entries and calls `send` on
every handler whose id differs from `sender_id` and which reports
itself active. -/
def Room.broadcast (r : Room) (sender_id : Nat)
    (sender_name message : String) : Room :=
  let payload := "[" ++ sender_name ++ "]: " ++ message
  { r with
    clients := r.clients.map fun p =>
      if p.1 ≠ sender_id ∧ p.2.is_active = true then (p.1, p.2.send payload)
      else p }

/-- `Room::broadcast_all`: formats the same payload and calls `send` on
every active handler, with no sender exclusion. -/
def Room.broadcast_all (r : Room) (sender_name message : String) : Room :=
  let payload := "[" ++ sender_name ++ "]: " ++ message
  { r with
    clients := r.clients.map fun p =>
      if p.2.is_active = true then (p.1, p.2.send payload) else p }

/-- `Room::client_count`: under the mutex, reads `clients_.size()`; a
`const` observation of the state. -/
def Room.client_count (r : Room) : Nat :=
  r.clients.length

/-- `Room::stop_all`: under the mutex, calls `stop()` on every handler
and clears the map. -/
def Room.stop_all (r : Room) : Room :=
  { r with clients := [] }

/-- One registry operation of the add/remove interface. -/
inductive RoomOp where
  | add (name : String)
  | remove (id : Nat)
deriving DecidableEq, Repr

/-- Run a sequence of add/remove operations against a room. -/
def applyOps : List RoomOp → Room → Room
  | [], r => r
  | .add n :: ops, r => applyOps ops (r.add_client n).2
  | .remove i :: ops, r => applyOps ops (r.remove_client i).1

/-- The ids handed out by the `add_client` calls of an operation
sequence, in call order. -/
def assignedIds : List RoomOp → Room → List Nat
  | [], _ => []
  | .add n :: ops, r => (r.add_client n).1 :: assignedIds ops (r.add_client n).2
  | .remove i :: ops, r => assignedIds ops (r.remove_client i).1

/-- Number of `add` operations in a sequence. -/
def countAdds : List RoomOp → Nat
  | [] => 0
  | .add _ :: ops => countAdds ops + 1
  | .remove _ :: ops => countAdds ops

/-- A sequence of `k` back-to-back `add_client` calls. -/
def repAdds (k : Nat) : List RoomOp :=
  List.replicate k (.add "x")

/-- The registry-state view of one map entry: its key, the handler's
display name, and its activity flag — everything except the ghost
`sent` instrumentation. -/
def entryView (p : Nat × ClientHandler) : Nat × String × Bool :=
  (p.1, p.2.name, p.2.is_active)

/-- A successful lookup names an entry of the map. -/
theorem lookup_mem {l : List (Nat × ClientHandler)} {id : Nat}
    {h : ClientHandler} (hl : l.lookup id = some h) : (id, h) ∈ l := by
  obtain ⟨l₁, l₂, rfl, -⟩ := List.lookup_eq_some_iff.1 hl
  simp

/-- A lookup succeeds exactly when the key is among the registered ids. -/
theorem lookup_isSome_iff_mem {l : List (Nat × ClientHandler)} {id : Nat} :
    (l.lookup id).isSome = true ↔ id ∈ l.map Prod.fst := by
  rw [List.lookup_isSome_iff]
  constructor
  · rintro ⟨p, hp, hbeq⟩
    exact List.mem_map.2 ⟨p, hp, (beq_iff_eq.1 hbeq).symm⟩
  · rintro hmem
    obtain ⟨p, hp, rfl⟩ := List.mem_map.1 hmem
    exact ⟨p, hp, by simp⟩

/-- C8 — `remove_client`: with an absent id the call is a no-op leaving
the state unchanged (and stops nobody); with a present id it invokes
`stop()` on that handler (leaving it inactive) and erases its entry, so
the registered count decreases by exactly one while `next_id_` is
untouched. -/
theorem remove_client_spec (r : Room) (id : Nat) :
    (r.clients.lookup id = none → r.remove_client id = (r, none)) ∧
    (∀ h, r.clients.lookup id = some h →
      (r.remove_client id).2 = some h.stop ∧
      (h.stop).is_active = false ∧
      (r.remove_client id).1.clients =
        r.clients.eraseP (fun p => p.1 == id) ∧
      (r.remove_client id).1.client_count + 1 = r.client_count ∧
      (r.remove_client id).1.next_id = r.next_id) := by
  constructor
  · intro hn
    simp [Room.remove_client, hn]
  · intro h hs
    have hmem : (id, h) ∈ r.clients := lookup_mem hs
    refine ⟨?_, rfl, ?_, ?_, ?_⟩
    · simp [Room.remove_client, hs]
    · simp [Room.remove_client, hs]
    · simp only [Room.remove_client, hs, Room.client_count]
      exact List.length_eraseP_add_one hmem (by simp)
    · simp [Room.remove_client, hs]

/-- A freshly constructed handler, as `add_client` builds one. -/
def mkHandler (nm : String) : ClientHandler :=
  { name := nm, running_ := true, sent := [] }

/-- A concrete three-client registry used by the witnesses. -/
def sampleRoom : Room :=
  { clients := [(1, mkHandler "A"), (2, mkHandler "B"), (3, mkHandler "C")],
    next_id := 4 }

/-- Witness for C8 on a concrete registry: removing the absent id 9 is
a no-op; removing the present id 1 stops that handler and shrinks the
count by one. -/
theorem remove_client_spec_witness :
    sampleRoom.remove_client 9 = (sampleRoom, none) ∧
    (sampleRoom.remove_client 1).2 =
      some { name := "A", running_ := false, sent := [] } ∧
    (sampleRoom.remove_client 1).1.client_count + 1 =
      sampleRoom.client_count := by
  refine ⟨?_, ?_, ?_⟩
  · exact (remove_client_spec sampleRoom 9).1 (by decide)
  · have := ((remove_client_spec sampleRoom 1).2 (mkHandler "A")
      (by decide)).1
    simpa [ClientHandler.stop, mkHandler] using this
  · exact (((remove_client_spec sampleRoom 1).2 (mkHandler "A")
      (by decide)).2).2.2.1

/-- C9 — `broadcast`, `broadcast_all` and `client_count` never modify
the registry state: the keys, names and activity flags of all entries
(`entryView`, the registry-visible part of the map), the registered
count and `next_id_` are identical before and after `broadcast` and
`broadcast_all` for every argument value, and `client_count` is a pure
observation of the state (the `const` method only reads
`clients_.size()`). Only the ghost `sent` instrumentation — bytes
leaving through workers' sockets — differs. -/
theorem broadcast_preserves_registry (r : Room) (sender_id : Nat)
    (sn text ln lt : String) :
    (r.broadcast sender_id sn text).clients.map entryView =
      r.clients.map entryView ∧
    (r.broadcast sender_id sn text).next_id = r.next_id ∧
    (r.broadcast sender_id sn text).client_count = r.client_count ∧
    (r.broadcast_all ln lt).clients.map entryView =
      r.clients.map entryView ∧
    (r.broadcast_all ln lt).next_id = r.next_id ∧
    (r.broadcast_all ln lt).client_count = r.client_count ∧
    r.client_count = r.clients.length := by
  refine ⟨?_, rfl, ?_, ?_, rfl, ?_, rfl⟩
  · simp only [Room.broadcast, List.map_map]
    apply List.map_congr_left
    intro p _
    simp only [Function.comp_apply]
    by_cases hc : p.1 ≠ sender_id ∧ p.2.is_active = true
    · rw [if_pos hc]
      rfl
    · rw [if_neg hc]
  · simp [Room.broadcast, Room.client_count]
  · simp only [Room.broadcast_all, List.map_map]
    apply List.map_congr_left
    intro p _
    simp only [Function.comp_apply]
    by_cases hc : p.2.is_active = true
    · rw [if_pos hc]
      rfl
    · rw [if_neg hc]
  · simp [Room.broadcast_all, Room.client_count]

/-- Looking up a key in a map whose transformation preserves keys finds
the transformed value of the original entry. -/
theorem lookup_map_entry (g : Nat → ClientHandler → ClientHandler)
    (l : List (Nat × ClientHandler)) (id : Nat) :
    (l.map (fun p => (p.1, g p.1 p.2))).lookup id =
      (l.lookup id).map (g id) := by
  induction l with
  | nil => rfl
  | cons p t ih =>
    obtain ⟨k, v⟩ := p
    by_cases hk : k = id
    · subst hk
      simp [List.lookup]
    · have hk2 : (id == k) = false := by
        rw [beq_eq_false_iff_ne]
        exact fun h => hk h.symm
      simp [List.lookup, hk2, ih]

/-- Every entry's key either differs from `s` or equals it: the two
counts add up to the registry size. -/
theorem countP_ne_add_eq (l : List (Nat × ClientHandler)) (s : Nat) :
    l.countP (fun p => !(p.1 == s)) + l.countP (fun p => p.1 == s) =
      l.length := by
  induction l with
  | nil => rfl
  | cons x t ih =>
    by_cases hq : (x.1 == s) = true
    · simp [List.countP_cons, hq]
      omega
    · have hq' : (x.1 == s) = false := by simpa using hq
      simp [List.countP_cons, hq']
      omega

/-- On an all-active registry whose keys are unique and contain the
sender, the entries with a different key number one less than the
registry size. -/
theorem countP_ne_sender (l : List (Nat × ClientHandler)) (sender_id : Nat)
    (hall : ∀ p ∈ l, p.2.is_active = true)
    (hmem : sender_id ∈ l.map Prod.fst) (hnd : (l.map Prod.fst).Nodup) :
    l.countP (fun p => !(p.1 == sender_id) && p.2.is_active) =
      l.length - 1 := by
  have h1 : l.countP (fun p => !(p.1 == sender_id) && p.2.is_active) =
      l.countP (fun p => !(p.1 == sender_id)) := by
    apply List.countP_congr
    intro p hp
    simp [hall p hp]
  have h2 : l.countP (fun p => p.1 == sender_id) = 1 := by
    have hcount := List.count_eq_one_of_mem hnd hmem
    rw [List.count_eq_countP, List.countP_map] at hcount
    simpa [Function.comp] using hcount
  have h3 := countP_ne_add_eq l sender_id
  omega

/-- C2 — Broadcast fan-out: for every registry state, `broadcast`
formats the payload `"[sender_name]: text"` and invokes `send` with it
on exactly those registered workers whose id differs from `sender_id`
and which report themselves active, leaving every other entry untouched;
on a registry of N uniquely-keyed, all-active workers containing the
sender, exactly N − 1 entries satisfy that receiving condition; and
`broadcast_all` invokes `send` with the same-formatted payload on every
active worker with no exclusion. -/
theorem broadcast_exclusion (r : Room) (sender_id : Nat)
    (sn text : String) :
    (∀ id h, r.clients.lookup id = some h →
      (r.broadcast sender_id sn text).clients.lookup id =
        some (if id ≠ sender_id ∧ h.is_active = true
          then h.send ("[" ++ sn ++ "]: " ++ text) else h)) ∧
    ((∀ p ∈ r.clients, p.2.is_active = true) →
      sender_id ∈ r.ids → r.ids.Nodup →
      r.clients.countP (fun p => !(p.1 == sender_id) && p.2.is_active) =
        r.clients.length - 1) ∧
    (∀ id h, r.clients.lookup id = some h →
      (r.broadcast_all sn text).clients.lookup id =
        some (if h.is_active = true
          then h.send ("[" ++ sn ++ "]: " ++ text) else h)) := by
  refine ⟨?_, ?_, ?_⟩
  · intro id h hl
    have hcl : (r.broadcast sender_id sn text).clients =
        r.clients.map (fun p =>
          (p.1, if p.1 ≠ sender_id ∧ p.2.is_active = true
            then p.2.send ("[" ++ sn ++ "]: " ++ text) else p.2)) := by
      simp only [Room.broadcast]
      apply List.map_congr_left
      intro p _
      by_cases hc : p.1 ≠ sender_id ∧ p.2.is_active = true
      · rw [if_pos hc, if_pos hc]
      · rw [if_neg hc, if_neg hc]
    rw [hcl, lookup_map_entry
      (fun k v => if k ≠ sender_id ∧ v.is_active = true
        then v.send ("[" ++ sn ++ "]: " ++ text) else v) r.clients id, hl]
    rfl
  · intro hall hmem hnd
    exact countP_ne_sender r.clients sender_id hall hmem hnd
  · intro id h hl
    have hcl : (r.broadcast_all sn text).clients =
        r.clients.map (fun p =>
          (p.1, if p.2.is_active = true
            then p.2.send ("[" ++ sn ++ "]: " ++ text) else p.2)) := by
      simp only [Room.broadcast_all]
      apply List.map_congr_left
      intro p _
      by_cases hc : p.2.is_active = true
      · rw [if_pos hc, if_pos hc]
      · rw [if_neg hc, if_neg hc]
    rw [hcl, lookup_map_entry
      (fun _ v => if v.is_active = true
        then v.send ("[" ++ sn ++ "]: " ++ text) else v) r.clients id, hl]
    rfl

/-- Witness for C2 on the concrete three-client all-active registry with
sender id 1: worker 2 has the formatted payload appended by `broadcast`,
exactly 2 = 3 − 1 entries satisfy the receiving condition, and
`broadcast_all` delivers to worker 1 as well. -/
theorem broadcast_exclusion_witness :
    (sampleRoom.broadcast 1 "A" "hi").clients.lookup 2 =
      some ((mkHandler "B").send ("[" ++ "A" ++ "]: " ++ "hi")) ∧
    sampleRoom.clients.countP (fun p => !(p.1 == 1) && p.2.is_active) =
      sampleRoom.clients.length - 1 ∧
    (sampleRoom.broadcast_all "A" "hi").clients.lookup 1 =
      some ((mkHandler "A").send ("[" ++ "A" ++ "]: " ++ "hi")) := by
  obtain ⟨hb, hc, hall⟩ := broadcast_exclusion sampleRoom 1 "A" "hi"
  refine ⟨?_, ?_, ?_⟩
  · have h2 := hb 2 (mkHandler "B") (by decide)
    rw [if_pos ⟨by decide, rfl⟩] at h2
    exact h2
  · exact hc (by decide) (by decide) (by decide)
  · have h1 := hall 1 (mkHandler "A") (by decide)
    rw [if_pos (show (mkHandler "A").is_active = true from rfl)] at h1
    exact h1

/-- An operation sequence without adds assigns no ids. -/
theorem assignedIds_eq_nil {ops : List RoomOp} (h : countAdds ops = 0) :
    ∀ r : Room, assignedIds ops r = [] := by
  induction ops with
  | nil => intro r; rfl
  | cons op t ih =>
    cases op with
    | add n => intro r; simp [countAdds] at h
    | remove i =>
      intro r
      simp only [countAdds] at h
      exact ih h _

/-- `remove_client` never touches the id counter. -/
theorem remove_client_next_id (r : Room) (i : Nat) :
    ((r.remove_client i).1).next_id = r.next_id := by
  simp only [Room.remove_client]
  cases hl : r.clients.lookup i <;> simp [hl]

/-- As long as the `uint32_t` id counter does not wrap, a sequence of
add/remove operations hands out the consecutive ids starting at the
current counter value. -/
theorem assignedIds_no_wrap (ops : List RoomOp) :
    ∀ r : Room, r.next_id + countAdds ops ≤ 2 ^ 32 →
      assignedIds ops r = List.range' r.next_id (countAdds ops) := by
  induction ops with
  | nil => intro r _; rfl
  | cons op t ih =>
    intro r h
    cases op with
    | add n =>
      simp only [countAdds] at h
      simp only [assignedIds, countAdds]
      by_cases h0 : countAdds t = 0
      · rw [assignedIds_eq_nil h0, h0]
        simp [Room.add_client, List.range']
      · have hlt : r.next_id + 1 < 2 ^ 32 := by omega
        have hnext : ((r.add_client n).2).next_id = r.next_id + 1 := by
          simp only [Room.add_client]
          omega
        rw [List.range'_succ]
        congr 1
        rw [ih _ (by rw [hnext]; omega), hnext]
    | remove i =>
      simp only [countAdds] at h
      simp only [assignedIds, countAdds]
      rw [ih _ (by rw [remove_client_next_id]; omega),
        remove_client_next_id]

/-- Adds and removes keep the registered ids free of duplicates:
`emplace` never inserts an already-present key, and erasure only
removes entries. -/
theorem ids_nodup (ops : List RoomOp) :
    ∀ r : Room, r.ids.Nodup → (applyOps ops r).ids.Nodup := by
  induction ops with
  | nil => exact fun r h => h
  | cons op t ih =>
    intro r h
    cases op with
    | add n =>
      simp only [applyOps]
      apply ih
      simp only [Room.add_client, Room.ids]
      by_cases hk : (r.clients.lookup r.next_id).isSome = true
      · simpa [hk] using h
      · have hnotmem : r.next_id ∉ r.clients.map Prod.fst := fun hmem =>
          hk (lookup_isSome_iff_mem.2 hmem)
        rw [if_neg (by simpa using hk), List.map_append]
        rw [List.nodup_append]
        exact ⟨h, List.nodup_singleton _, by
          intro a ha hb
          simp only [List.map_cons, List.map_nil, List.mem_singleton] at hb
          subst hb
          exact hnotmem ha⟩
    | remove i =>
      simp only [applyOps]
      apply ih
      simp only [Room.remove_client]
      cases hl : r.clients.lookup i with
      | none => simpa using h
      | some w =>
        simp only [Room.ids] at h ⊢
        exact List.Nodup.sublist
          (List.Sublist.map Prod.fst (List.eraseP_sublist _)) h

/-- C4 (amended) — Identifier discipline below the wrap: for every
sequence of add/remove operations on a fresh registry in which fewer
than `2 ^ 32` `add_client` calls occur (so the `uint32_t` counter
`next_id_` cannot wrap), the ids handed out are exactly `1, 2, 3, …` in
order — strictly monotonically increasing, starting at 1, all distinct
(hence an id,  once removed, is never handed out again) — and the
simultaneously-registered ids are always duplicate-free. -/
theorem add_client_ids_monotone (ops : List RoomOp)
    (h : countAdds ops < 2 ^ 32) :
    assignedIds ops freshRoom = List.range' 1 (countAdds ops) ∧
    List.Pairwise (· < ·) (assignedIds ops freshRoom) ∧
    (assignedIds ops freshRoom).Nodup ∧
    (applyOps ops freshRoom).ids.Nodup := by
  have hfresh : freshRoom.next_id = 1 := rfl
  have hr : assignedIds ops freshRoom = List.range' 1 (countAdds ops) := by
    have := assignedIds_no_wrap ops freshRoom (by rw [hfresh]; omega)
    rwa [hfresh] at this
  refine ⟨hr, ?_, ?_, ?_⟩
  · rw [hr]
    exact List.pairwise_lt_range' 1 (countAdds ops)
  · rw [hr]
    exact List.nodup_range' 1 (countAdds ops)
  · exact ids_nodup ops freshRoom (by simp [freshRoom, Room.ids])

/-- Witness for C4 (amended) at a concrete sequence: add two clients,
remove the first, add a third — the assigned ids are `[1, 2, 3]`. -/
theorem add_client_ids_monotone_witness :
    assignedIds [RoomOp.add "a", RoomOp.add "b", RoomOp.remove 1,
        RoomOp.add "c"] freshRoom =
      List.range' 1 (countAdds [RoomOp.add "a", RoomOp.add "b",
        RoomOp.remove 1, RoomOp.add "c"]) ∧
    List.Pairwise (· < ·) (assignedIds [RoomOp.add "a", RoomOp.add "b",
      RoomOp.remove 1, RoomOp.add "c"] freshRoom) ∧
    (assignedIds [RoomOp.add "a", RoomOp.add "b", RoomOp.remove 1,
      RoomOp.add "c"] freshRoom).Nodup ∧
    (applyOps [RoomOp.add "a", RoomOp.add "b", RoomOp.remove 1,
      RoomOp.add "c"] freshRoom).ids.Nodup :=
  add_client_ids_monotone
    [RoomOp.add "a", RoomOp.add "b", RoomOp.remove 1, RoomOp.add "c"]
    (by norm_num [countAdds])

/-- With only adds, starting below the wrap boundary, the id assigned by
the i-th call is the counter's start value plus i, reduced mod `2^32`. -/
theorem assignedIds_repAdds (k : Nat) :
    ∀ r : Room, r.next_id < 2 ^ 32 →
      assignedIds (repAdds k) r =
        (List.range k).map (fun i => (r.next_id + i) % 2 ^ 32) := by
  induction k with
  | zero => intro r _; rfl
  | succ n ih =>
    intro r h
    have hstep : repAdds (n + 1) = RoomOp.add "x" :: repAdds n := by
      simp [repAdds, List.replicate_succ]
    rw [hstep]
    simp only [assignedIds]
    have hnext : ((r.add_client "x").2).next_id =
        (r.next_id + 1) % 2 ^ 32 := rfl
    have hlt : ((r.add_client "x").2).next_id < 2 ^ 32 := by
      rw [hnext]
      exact Nat.mod_lt _ (by norm_num)
    rw [ih _ hlt, hnext, List.range_succ_eq_map]
    simp only [List.map_cons, List.map_map]
    congr 1
    · show r.next_id = (r.next_id + 0) % 2 ^ 32
      omega
    · apply List.map_congr_left
      intro i _
      simp only [Function.comp_apply, Nat.succ_eq_add_one]
      omega

/-- Counterexample to C4 as stated: `next_id_` is a `uint32_t`, so over
the registry's lifetime the claim "ids are strictly monotonically
increasing and never reassigned" fails once `2 ^ 32` `add_client` calls
have occurred: in a run of `2 ^ 32 + 1` consecutive adds on a fresh
registry, the first call (position 0) and the `2 ^ 32`-th call both
return id 1, so the assignment history is not strictly increasing. -/
theorem add_client_id_wraps :
    (assignedIds (repAdds (2 ^ 32 + 1)) freshRoom)[0]? = some 1 ∧
    (assignedIds (repAdds (2 ^ 32 + 1)) freshRoom)[2 ^ 32]? = some 1 ∧
    ¬ List.Pairwise (· < ·)
      (assignedIds (repAdds (2 ^ 32 + 1)) freshRoom) := by
  have hids := assignedIds_repAdds (2 ^ 32 + 1) freshRoom
    (by norm_num [freshRoom])
  have hfresh : freshRoom.next_id = 1 := rfl
  rw [hfresh] at hids
  have hg : ∀ m : Nat, m < 2 ^ 32 + 1 →
      (assignedIds (repAdds (2 ^ 32 + 1)) freshRoom)[m]? =
        some ((1 + m) % 2 ^ 32) := by
    intro m hm
    rw [hids, List.getElem?_map, List.getElem?_range hm]
    rfl
  have h0 := hg 0 (by norm_num)
  have h32 := hg (2 ^ 32) (by norm_num)
  have e0 : (1 + 0) % 2 ^ 32 = 1 := by norm_num
  have e32 : (1 + 2 ^ 32) % 2 ^ 32 = 1 := by norm_num
  rw [e0] at h0
  rw [e32] at h32
  refine ⟨h0, h32, ?_⟩
  intro hp
  obtain ⟨hb0, he0⟩ := List.getElem?_eq_some_iff.1 h0
  obtain ⟨hb32, he32⟩ := List.getElem?_eq_some_iff.1 h32
  have hlt := List.pairwise_iff_getElem.1 hp 0 (2 ^ 32) hb0 hb32
    (by norm_num)
  rw [he0, he32] at hlt
  exact lt_irrefl 1 hlt
